import Mathlib

/-!
Verification of the DUCKTAPE monitoring and vulnerability-tracking engine.

This file gives a shallow embedding of the decision logic of the repository
(`scheduler.js`, `vulnScheduler.js`, `statusGraph.js`, `messageUtils.js`,
`vulnScanner.js`) and proves the behavioural properties stated in the
specification.  JavaScript strings are modelled as `List Char`, machine
numbers as `Nat`/`Int` (all quantities involved are integers in the source;
`Math.floor` of a nonnegative integer quotient is `Nat` division).
Definitions are transcribed from the source files; the few operations that
live in the database layer (`db.js`, not part of the source tree) are
modelled from the specification and marked as such.
-/

/-- A JavaScript string, modelled as its list of characters. -/
abbrev JStr := List Char

/-- JavaScript whitespace test used by `String.prototype.trim` (the
characters that actually occur in this code base's data). -/
def isWS (c : Char) : Bool :=
  c == ' ' || c == '\t' || c == '\n' || c == '\r'

/-- `String.prototype.trim`: remove whitespace from both ends. -/
def trimJS (s : JStr) : JStr :=
  ((s.dropWhile isWS).reverse.dropWhile isWS).reverse

/-- `String.prototype.split(sep)` for a one-character separator: splits at
every occurrence, keeping empty pieces (so `"".split(sep) = [""]`). -/
def splitOnChar (sep : Char) : JStr → List JStr
  | [] => [[]]
  | c :: rest =>
    if c == sep then [] :: splitOnChar sep rest
    else
      match splitOnChar sep rest with
      | [] => [[c]]
      | g :: gs => (c :: g) :: gs

/-- Numeric value of a list of decimal digits (most significant first). -/
def natOfDigits (ds : List Char) : Nat :=
  ds.foldl (fun acc c => 10 * acc + (c.toNat - 48)) 0

/-- `parseInt(s, 10)`: skip leading whitespace, read an optional sign and a
run of decimal digits; `none` models the `NaN` result when no digit is
found. -/
def parseIntJS (s : JStr) : Option Int :=
  let t := s.dropWhile isWS
  match t with
  | '-' :: rest =>
    let ds := rest.takeWhile Char.isDigit
    if ds.isEmpty then none else some (-(natOfDigits ds : Int))
  | '+' :: rest =>
    let ds := rest.takeWhile Char.isDigit
    if ds.isEmpty then none else some (natOfDigits ds : Int)
  | _ =>
    let ds := t.takeWhile Char.isDigit
    if ds.isEmpty then none else some (natOfDigits ds : Int)

/-- `parseInt(x, 10) || 0` from `compareVersions` in `vulnScanner.js`:
`NaN` collapses to `0` (and `0` stays `0`). -/
def toNumOr0 (s : JStr) : Int :=
  match parseIntJS s with
  | some n => n
  | none => 0

/-- The index loop of `compareVersions` (`vulnScanner.js` lines 74-79):
compare two numeric component lists position by position, reading `0` for a
missing component (`pa[i] || 0`). -/
def padCmp : List Int → List Int → Int
  | [], [] => 0
  | a :: as, b :: bs =>
    if a < b then -1 else if b < a then 1 else padCmp as bs
  | a :: as, [] =>
    if a < 0 then -1 else if 0 < a then 1 else padCmp as []
  | [], b :: bs =>
    if 0 < b then -1 else if b < 0 then 1 else padCmp [] bs

/-- `compareVersions(a, b)` from `vulnScanner.js` lines 71-80: split both
strings on `.`, map each piece through `parseInt(x, 10) || 0`, and compare
componentwise with zero padding. -/
def compareVersions (a b : JStr) : Int :=
  padCmp ((splitOnChar '.' a).map toNumOr0) ((splitOnChar '.' b).map toNumOr0)

/-! ## `messageUtils.js`: splitMessage -/

/-- Discord's message length cap used by `splitMessage`. -/
def maxLen : Nat := 2000

/-- The `while (currentChunk.length > maxLength)` loop of `splitMessage`
(`messageUtils.js` lines 24-27), written with an explicit fuel argument so
that it is structurally recursive; `cur.length` steps are always enough
because every iteration removes `maxLen > 0` characters. -/
def breakLongAux : Nat → List JStr → JStr → List JStr × JStr
  | 0, chunks, cur => (chunks, cur)
  | n + 1, chunks, cur =>
    if maxLen < cur.length then
      breakLongAux n (chunks ++ [cur.take maxLen]) (cur.drop maxLen)
    else (chunks, cur)

def breakLong (chunks : List JStr) (cur : JStr) : List JStr × JStr :=
  breakLongAux cur.length chunks cur

/-- The `for (const line of lines)` loop of `splitMessage`
(`messageUtils.js` lines 13-30). -/
def splitLoop : List JStr → List JStr → JStr → List JStr × JStr
  | [], chunks, cur => (chunks, cur)
  | line :: rest, chunks, cur =>
    if (cur ++ line ++ ['\n']).length ≤ maxLen then
      splitLoop rest chunks (cur ++ line ++ ['\n'])
    else
      let chunks1 := if cur.isEmpty then chunks else chunks ++ [trimJS cur]
      let p := breakLong chunks1 (line ++ ['\n'])
      splitLoop rest p.1 p.2

/-- `splitMessage(text)` from `messageUtils.js` lines 6-37. -/
def splitMessage (text : JStr) : List JStr :=
  let p := splitLoop (splitOnChar '\n' text) [] []
  if (trimJS p.2).isEmpty then p.1 else p.1 ++ [trimJS p.2]

/-! ## `scheduler.js`: probe outcome and uptime alert policy -/

/-- The observable outcome of the `fetch` call in `checkProject`
(`scheduler.js` lines 79-109).  `success status bodyText` is a completed
HTTP response (`bodyText = none` models `response.text()` itself throwing,
the inner `catch` at lines 97-100); `failure` is a transport error or the
10-second abort (the outer `catch` at lines 104-109). -/
inductive FetchOutcome
  | success (status : Int) (bodyText : Option JStr)
  | failure
deriving DecidableEq

/-- The probe fields `checkProject` computes before consulting the status
tracker: `isUp`, `statusCode`, `responseBody`. -/
structure ProbeResult where
  isUp : Bool
  statusCode : Option Int
  responseBody : Option JStr
deriving DecidableEq

/-- The probe logic of `checkProject` (`scheduler.js` lines 72-109):
`isUp` is `statusCode === 200`; on a down-but-responded check the body is
captured and truncated with `substring(0, 3000)`; on a transport
error/timeout the status code and body are absent. -/
def checkProbe : FetchOutcome → ProbeResult
  | .success st body =>
    if st == 200 then
      { isUp := true, statusCode := some st, responseBody := none }
    else
      { isUp := false, statusCode := some st,
        responseBody :=
          match body with
          | some b => some (b.take 3000)
          | none => none }
  | .failure => { isUp := false, statusCode := none, responseBody := none }

/-- Per-target configuration read from the project registry: the two fields
`checkProject` uses for alert arithmetic. -/
structure Project where
  failure_threshold : Nat
  check_interval_sec : Nat
deriving DecidableEq

/-- A row of `target_status` as read by `getProjectStatus`: the fields used
by the alert policy. -/
structure StatusRow where
  is_up : Bool
  consecutive_failures : Nat
deriving DecidableEq

/-- The value `updateProjectStatus` returns to `checkProject`. -/
structure StatusChange where
  wasUp : Bool
  consecutiveFailures : Nat
deriving DecidableEq

/-- Modelled from the spec: `updateProjectStatus` lives in `db.js`, which is
not among the source files.  Spec contract (section 4.2 and the
StatusRecord invariant of section 3): `consecutiveFailures` resets to 0 on
a successful check and increments by exactly 1 on a failed check, and
`wasUp` reflects the stored up/down flag strictly before this call.  For a
target with no prior status row the previous state is taken as up with no
failures. -/
def updateProjectStatus (prev : Option StatusRow) (isUp : Bool) : StatusChange :=
  { wasUp :=
      match prev with
      | some s => s.is_up
      | none => true
    consecutiveFailures :=
      if isUp then 0
      else
        match prev with
        | some s => s.consecutive_failures + 1
        | none => 1 }

/-- `Math.floor(1800 / project.check_interval_sec)` (`scheduler.js` line
125).  `Nat` division is exactly `Math.floor` of the quotient for the
positive intervals the registry stores (the spec requires intervals of at
least 10 seconds). -/
def checksPer30Min (p : Project) : Nat :=
  1800 / p.check_interval_sec

/-- `secondFailureThreshold` (`scheduler.js` lines 126-127): `none` models
the `null` used when `checksPer30Min` is 0. -/
def secondFailureThreshold (p : Project) : Option Nat :=
  if 0 < checksPer30Min p then some (p.failure_threshold + checksPer30Min p)
  else none

/-- The `DOWN`-alert condition of `checkProject` (`scheduler.js` lines
135-142), as a function of the probe outcome and the new consecutive
failure count. -/
def downAlertFires (p : Project) (isUp : Bool) (cf : Nat) : Bool :=
  !isUp &&
    (cf == p.failure_threshold ||
      (match secondFailureThreshold p with
       | some t => cf == t
       | none => false))

/-- `hadReachedFailureThreshold` (`scheduler.js` lines 129-132): the
previous status row exists and its failure count reached the threshold. -/
def hadReachedFailureThreshold (p : Project) (prev : Option StatusRow) : Bool :=
  match prev with
  | some s => p.failure_threshold ≤ s.consecutive_failures
  | none => false

/-- The alert emitted by one completed check. -/
inductive AlertKind
  | DOWN
  | RECOVERED
  | NONE
deriving DecidableEq

/-- The alert decision of `checkProject` (`scheduler.js` lines 111-149):
read the previous status, record the check, then fire `DOWN` at an exact
threshold crossing, else `RECOVERED` on an up-check after a
threshold-reaching outage, else nothing. -/
def alertDecision (p : Project) (prev : Option StatusRow) (isUp : Bool) : AlertKind :=
  if downAlertFires p isUp (updateProjectStatus prev isUp).consecutiveFailures then .DOWN
  else if isUp && !(updateProjectStatus prev isUp).wasUp &&
      hadReachedFailureThreshold p prev then .RECOVERED
  else .NONE

/-! ## `vulnScheduler.js`: the vulnerability diff engine -/

/-- One finding of a vulnerability scan, with the fields the diff engine
reads (`cve`, `severity`) and the identifying fields it persists; the
purely presentational fields (`cvss`, `source`, `description`, `url`) are
never consulted by any decision in `checkProjectVulnerabilities` and are
omitted. -/
structure Finding where
  cve : String
  technology : String
  version : String
  severity : String
deriving DecidableEq

/-- A `vulnerabilities` table row as the diff engine sees it: CVE id,
technology, severity, and the resolved tombstone flag. -/
structure StoredCVE where
  cve_id : String
  technology : String
  severity : String
  resolved : Bool
deriving DecidableEq

/-- An ignore-list row, appended by `ignoreCVEs`. -/
structure IgnoreEntry where
  project_id : Nat
  cve_id : String
  user_id : String
deriving DecidableEq

/-- Modelled from the spec: `getActiveCVEsForProject` lives in `db.js`,
which is not among the source files.  Spec contract (section 4.5): it
returns the currently-active VulnerabilityRecords, i.e. the rows not
marked resolved. -/
def activeRecords (store : List StoredCVE) : List StoredCVE :=
  store.filter (fun r => !r.resolved)

/-- `currentCVEIds.has(id)` (`vulnScheduler.js` line 202). -/
def currentHasCVE (current : List Finding) (id : String) : Bool :=
  current.any (fun v => v.cve == id)

/-- `storedCVEIds.has(id)` (`vulnScheduler.js` line 203). -/
def storedHasCVE (stored : List StoredCVE) (id : String) : Bool :=
  stored.any (fun r => r.cve_id == id)

/-- `newVulns` (`vulnScheduler.js` line 206): fresh findings whose CVE id
is not among the active records. -/
def newVulns (current : List Finding) (stored : List StoredCVE) : List Finding :=
  current.filter (fun v => !storedHasCVE stored v.cve)

/-- `resolvedCVEIds` (`vulnScheduler.js` lines 209-211): ids of active
records absent from the fresh scan. -/
def resolvedCVEIds (stored : List StoredCVE) (current : List Finding) : List String :=
  (stored.filter (fun r => !currentHasCVE current r.cve_id)).map (fun r => r.cve_id)

/-- `resolvedHighPlus` (`vulnScheduler.js` lines 214-215): resolved records
whose prior severity was HIGH or CRITICAL.  Note: the source does not
consult the ignore list here. -/
def resolvedHighPlus (stored : List StoredCVE) (current : List Finding) : List StoredCVE :=
  stored.filter (fun r =>
    !currentHasCVE current r.cve_id && (r.severity == "HIGH" || r.severity == "CRITICAL"))

/-- `newHighVulns` (`vulnScheduler.js` lines 218-220): new findings of
severity HIGH whose CVE id is not ignored. -/
def newHighVulns (current : List Finding) (stored : List StoredCVE)
    (ignored : List String) : List Finding :=
  (newVulns current stored).filter
    (fun v => v.severity == "HIGH" && !ignored.contains v.cve)

/-- `newCriticalVulns` (`vulnScheduler.js` lines 221-223). -/
def newCriticalVulns (current : List Finding) (stored : List StoredCVE)
    (ignored : List String) : List Finding :=
  (newVulns current stored).filter
    (fun v => v.severity == "CRITICAL" && !ignored.contains v.cve)

/-- `allCurrentCritical` (`vulnScheduler.js` lines 226-228): every finding
of the fresh scan with severity CRITICAL and not ignored, new or not. -/
def allCurrentCritical (current : List Finding) (ignored : List String) : List Finding :=
  current.filter (fun v => v.severity == "CRITICAL" && !ignored.contains v.cve)

/-- `shouldAlert` (`vulnScheduler.js` lines 244-247). -/
def shouldAlert (current : List Finding) (stored : List StoredCVE)
    (ignored : List String) : Bool :=
  !(newHighVulns current stored ignored).isEmpty ||
    !(allCurrentCritical current ignored).isEmpty ||
    !(resolvedHighPlus stored current).isEmpty

/-- Modelled from the spec: `saveCVEs` lives in `db.js`, which is not among
the source files.  Spec contract (section 4.5 step 3): insert the new
findings as fresh, unresolved VulnerabilityRecords. -/
def saveCVEs (store : List StoredCVE) (vulns : List Finding) : List StoredCVE :=
  store ++ vulns.map (fun v =>
    { cve_id := v.cve, technology := v.technology, severity := v.severity,
      resolved := false })

/-- Modelled from the spec: `markCVEsResolved` lives in `db.js`, which is
not among the source files.  Spec contract (section 4.5 step 3): mark the
listed records resolved (a tombstone; nothing is deleted). -/
def markCVEsResolved (store : List StoredCVE) (ids : List String) : List StoredCVE :=
  store.map (fun r => if ids.contains r.cve_id then { r with resolved := true } else r)

/-- The state-and-alert effect of `checkProjectVulnerabilities`
(`vulnScheduler.js` lines 186-275) on one target's CVE store.  The `scan`
argument is the outcome of `scanUrl`: `none` models the call throwing, in
which case the function returns `null` without touching the store (lines
190-195); otherwise the diff is computed against the active records and
persisted, and the second component reports whether an alert is sent. -/
def checkProjectVulnerabilities (store : List StoredCVE) (ignored : List String)
    (scan : Option (List Finding)) : List StoredCVE × Option Bool :=
  match scan with
  | none => (store, none)
  | some current =>
    let stored := activeRecords store
    let nv := newVulns current stored
    let rIds := resolvedCVEIds stored current
    let store1 := saveCVEs store nv
    let store2 := markCVEsResolved store1 rIds
    (store2, some (shouldAlert current stored ignored))

/-- Modelled from the spec: `ignoreCVEs` lives in `db.js`, which is not
among the source files.  Spec contract (section 4.5 step 6): append one
IgnoreEntry row per selected CVE id (`handleIgnoreCVEsSelect` in
`commands.js` line 219 passes the project id, the selected ids and the
user). -/
def ignoreCVEs (table : List IgnoreEntry) (pid : Nat) (ids : List String)
    (uid : String) : List IgnoreEntry :=
  table ++ ids.map (fun c => { project_id := pid, cve_id := c, user_id := uid })

/-- Modelled from the spec: `getIgnoredCVEsForProject` lives in `db.js`,
which is not among the source files.  Spec contract: the CVE ids ignored
for the given target. -/
def getIgnoredCVEsForProject (table : List IgnoreEntry) (pid : Nat) : List String :=
  (table.filter (fun e => e.project_id == pid)).map (fun e => e.cve_id)

/-- The daily batch `runDailyVulnScan` (`vulnScheduler.js` lines 72-93):
scan each active project in turn, each inside its own try/catch, so one
failure never aborts the rest.  The global CVE store is a map from project
id to that target's rows; the `scans` argument gives each target's
`scanUrl` outcome. -/
def runDailyVulnScan (projects : List Nat) (scans : Nat → Option (List Finding))
    (table : List IgnoreEntry) (store : Nat → List StoredCVE) :
    (Nat → List StoredCVE) × List (Option Bool) :=
  match projects with
  | [] => (store, [])
  | p :: rest =>
    let r := checkProjectVulnerabilities (store p) (getIgnoredCVEsForProject table p) (scans p)
    let store1 := fun q => if q = p then r.1 else store q
    let next := runDailyVulnScan rest scans table store1
    (next.1, r.2 :: next.2)

/-! ## `statusGraph.js`: the aggregator -/

/-- A `check_history` row as `bucketUptimeData` reads it: timestamp in
epoch milliseconds and the up/down flag. -/
structure CheckRec where
  checked_at : Int
  is_up : Bool
deriving DecidableEq

/-- One slot accumulator of `bucketUptimeData`. -/
structure Bucket where
  checks : Nat
  upCount : Nat
deriving DecidableEq

/-- `buckets[slot].checks++` and the conditional `upCount++`
(`statusGraph.js` lines 225-228). -/
def updateSlot : List Bucket → Nat → Bool → List Bucket
  | [], _, _ => []
  | b :: bs, 0, up =>
    { checks := b.checks + 1, upCount := b.upCount + (if up then 1 else 0) } :: bs
  | b :: bs, n + 1, up => b :: updateSlot bs n up

/-- Processing of one record in the loop of `bucketUptimeData`
(`statusGraph.js` lines 218-230): skip records outside
`[startTime, endTime]`, then place the record at
`Math.floor((checkTime - startTime) / msPerSlot)` if that slot index is in
range.  After the window test the numerator is nonnegative, so the floor is
`Nat` division. -/
def addCheck (startTime endTime : Int) (numSlots msPerSlot : Nat)
    (buckets : List Bucket) (c : CheckRec) : List Bucket :=
  if c.checked_at < startTime || endTime < c.checked_at then buckets
  else if (c.checked_at - startTime).toNat / msPerSlot < numSlots then
    updateSlot buckets ((c.checked_at - startTime).toNat / msPerSlot) c.is_up
  else buckets

/-- `bucketUptimeData(uptimeData, startTime, endTime, numSlots, msPerSlot)`
(`statusGraph.js` lines 212-233). -/
def bucketUptimeData (uptimeData : List CheckRec) (startTime endTime : Int)
    (numSlots msPerSlot : Nat) : List Bucket :=
  uptimeData.foldl (addCheck startTime endTime numSlots msPerSlot)
    (List.replicate numSlots { checks := 0, upCount := 0 })

/-- The colours `getSlotColor` can return; `mixed` stands for the source's
`COLORS.partial` (#d29922). -/
inductive SlotColor
  | noData
  | upBright
  | up
  | mixed
  | down
  | downBright
deriving DecidableEq

/-- `getSlotColor(bucket)` (`statusGraph.js` lines 238-256).  The float
comparisons on `ratio = upCount / checks` are expressed exactly over the
integers: `ratio ≥ 1` is `checks ≤ upCount`, `ratio ≥ 0.8` is
`4 * checks ≤ 5 * upCount`, `ratio ≥ 0.5` is `checks ≤ 2 * upCount`, and
`ratio > 0` is `0 < upCount`. -/
def getSlotColor (b : Bucket) : SlotColor :=
  if b.checks = 0 then .noData
  else if b.checks ≤ b.upCount then .upBright
  else if 4 * b.checks ≤ 5 * b.upCount then .up
  else if b.checks ≤ 2 * b.upCount then .mixed
  else if 0 < b.upCount then .down
  else .downBright

/-- The four-way bucket classification named by the specification; `half`
is the classification the spec writes as PARTIAL. -/
inductive SlotClass
  | noData
  | up
  | half
  | down
deriving DecidableEq

/-- Follows the spec's words (section 4.7), for comparison with
`getSlotColor`: NO_DATA if zero checks; else UP if `upCount == checks`;
else PARTIAL if `upCount / checks ≥ 0.5`; else DOWN. -/
def specSlotClass (b : Bucket) : SlotClass :=
  if b.checks = 0 then .noData
  else if b.upCount = b.checks then .up
  else if b.checks ≤ 2 * b.upCount then .half
  else .down

/-- Membership of a record in slot `j` of the reporting window: the
half-open interval of width `msPerSlot` starting at
`startTime + j * msPerSlot`. -/
def inSlot (startTime : Int) (msPerSlot : Nat) (j : Nat) (c : CheckRec) : Bool :=
  decide (startTime + ((j * msPerSlot : Nat) : Int) ≤ c.checked_at) &&
    decide (c.checked_at < startTime + (((j + 1) * msPerSlot : Nat) : Int))

/-! ## Helper lemmas -/

theorem padCmp_self (l : List Int) : padCmp l l = 0 := by
  induction l with
  | nil => simp [padCmp]
  | cons a as ih => simp [padCmp, ih]

theorem padCmp_nil_anti (l : List Int) : padCmp [] l = -padCmp l [] := by
  induction l with
  | nil => simp [padCmp]
  | cons b bs ih =>
    rcases lt_trichotomy b 0 with h | h | h
    · simp [padCmp, h, not_lt_of_gt h]
    · simp [padCmp, h, ih]
    · simp [padCmp, h, not_lt_of_gt h]

theorem padCmp_antisymm (l1 l2 : List Int) : padCmp l1 l2 = -padCmp l2 l1 := by
  induction l1 generalizing l2 with
  | nil => exact padCmp_nil_anti l2
  | cons a as ih =>
    cases l2 with
    | nil =>
      have h := padCmp_nil_anti (a :: as)
      omega
    | cons b bs =>
      rcases lt_trichotomy a b with h | h | h
      · simp [padCmp, h, not_lt_of_gt h]
      · subst h
        simp [padCmp, ih bs]
      · simp [padCmp, h, not_lt_of_gt h]

theorem trimJS_length_le (s : JStr) : (trimJS s).length ≤ s.length := by
  unfold trimJS
  calc ((s.dropWhile isWS).reverse.dropWhile isWS).reverse.length
      = ((s.dropWhile isWS).reverse.dropWhile isWS).length := List.length_reverse _
    _ ≤ (s.dropWhile isWS).reverse.length := (List.dropWhile_sublist _).length_le
    _ = (s.dropWhile isWS).length := List.length_reverse _
    _ ≤ s.length := (List.dropWhile_sublist _).length_le

theorem breakLongAux_bounded (n : Nat) (chunks : List JStr) (cur : JStr)
    (hn : cur.length ≤ n) (hc : ∀ c ∈ chunks, c.length ≤ maxLen) :
    (∀ c ∈ (breakLongAux n chunks cur).1, c.length ≤ maxLen) ∧
      (breakLongAux n chunks cur).2.length ≤ maxLen := by
  induction n generalizing chunks cur with
  | zero =>
    exact ⟨hc, (show cur.length ≤ maxLen by omega)⟩
  | succ n ih =>
    simp only [breakLongAux]
    split
    · rename_i hlong
      refine ih _ _ ?_ ?_
      · have hd := List.length_drop maxLen cur
        have hm : maxLen = 2000 := rfl
        omega
      · intro c hm
        rcases List.mem_append.mp hm with h | h
        · exact hc c h
        · rcases List.mem_singleton.mp h with rfl
          have ht := List.length_take maxLen cur
          omega
    · rename_i hshort
      exact ⟨hc, Nat.le_of_not_lt hshort⟩

theorem splitLoop_bounded (lines : List JStr) (chunks : List JStr) (cur : JStr)
    (hc : ∀ c ∈ chunks, c.length ≤ maxLen) (hcur : cur.length ≤ maxLen) :
    (∀ c ∈ (splitLoop lines chunks cur).1, c.length ≤ maxLen) ∧
      (splitLoop lines chunks cur).2.length ≤ maxLen := by
  induction lines generalizing chunks cur with
  | nil => exact ⟨hc, hcur⟩
  | cons line rest ih =>
    simp only [splitLoop]
    split
    · rename_i hfits
      exact ih _ _ hc hfits
    · have hc1 : ∀ c ∈ (if cur.isEmpty then chunks else chunks ++ [trimJS cur]),
          c.length ≤ maxLen := by
        split
        · exact hc
        · intro c hm
          rcases List.mem_append.mp hm with h | h
          · exact hc c h
          · rcases List.mem_singleton.mp h with rfl
            exact le_trans (trimJS_length_le cur) hcur
      have hb := breakLongAux_bounded (line ++ ['\n']).length _ (line ++ ['\n'])
        le_rfl hc1
      exact ih _ _ hb.1 hb.2

/-! ## Claim theorems -/

/-- C10: the version comparison function is antisymmetric and reflexive:
for all version strings `a` and `b`, `compareVersions a b` is the negation
of `compareVersions b a`, and `compareVersions a a` is `0`. -/
theorem compareVersions_antisymm_refl (a b : JStr) :
    compareVersions a b = -compareVersions b a ∧ compareVersions a a = 0 :=
  ⟨padCmp_antisymm _ _, padCmp_self _⟩

/-- C9: every chunk in the list returned by `splitMessage` has length at
most 2000 characters. -/
theorem splitMessage_chunks_within_limit (text : JStr) :
    ∀ c ∈ splitMessage text, c.length ≤ 2000 := by
  intro c hc
  show c.length ≤ maxLen
  simp only [splitMessage] at hc
  have h := splitLoop_bounded (splitOnChar '\n' text) [] []
    (by intro c hm; cases hm) (by simp)
  split at hc
  · exact h.1 c hc
  · rcases List.mem_append.mp hc with hm | hm
    · exact h.1 c hm
    · rcases List.mem_singleton.mp hm with rfl
      exact le_trans (trimJS_length_le _) h.2

theorem splitMessage_chunks_within_limit_witness :
    (['h', 'i'] : JStr) ∈ splitMessage ['h', 'i'] ∧ (['h', 'i'] : JStr).length ≤ 2000 :=
  ⟨by decide, splitMessage_chunks_within_limit ['h', 'i'] ['h', 'i'] (by decide)⟩

/-- C6: for every probe execution, `isUp` is true iff the HTTP status code
is exactly 200; a non-200 status, transport error or timeout yields
`isUp = false`, with the status code recorded exactly when a response
arrived; on a down-but-responded check the readable response body is
captured truncated to at most 3000 characters, and on failure paths the
body is absent. -/
theorem probe_up_iff_status_200 :
    (∀ st body, ((checkProbe (.success st body)).isUp = true ↔ st = 200)) ∧
      checkProbe .failure = { isUp := false, statusCode := none, responseBody := none } ∧
      (∀ st body, (checkProbe (.success st body)).statusCode = some st) ∧
      (∀ st body, (checkProbe (.success st body)).responseBody =
        if st = 200 then none else body.map (fun b => b.take 3000)) ∧
      (∀ o, ((checkProbe o).responseBody.getD []).length ≤ 3000) := by
  refine ⟨?_, rfl, ?_, ?_, ?_⟩
  · intro st body
    by_cases h : st = 200 <;> simp [checkProbe, h]
  · intro st body
    by_cases h : st = 200 <;> simp [checkProbe, h]
  · intro st body
    by_cases h : st = 200 <;> cases body <;> simp [checkProbe, h, Option.map]
  · intro o
    cases o with
    | failure => simp [checkProbe]
    | success st body =>
      by_cases h : st = 200
      · simp [checkProbe, h]
      · cases body with
        | none => simp [checkProbe, h]
        | some b =>
          simp only [checkProbe, beq_iff_eq, h, if_false, Option.getD_some]
          have := List.length_take 3000 b
          omega

theorem alertDecision_down_iff (p : Project) (prev : Option StatusRow) (isUp : Bool) :
    alertDecision p prev isUp = .DOWN ↔
      downAlertFires p isUp (updateProjectStatus prev isUp).consecutiveFailures = true := by
  unfold alertDecision
  split
  · rename_i h
    simp [h]
  · rename_i h
    split <;> simp [h]

/-- C1: a DOWN alert is emitted iff the check failed and the new
consecutive-failure count equals exactly the failure threshold (first
alert) or, when `floor(1800 / checkIntervalSeconds) > 0`, exactly
`failureThreshold + floor(1800 / checkIntervalSeconds)` (escalation
alert); for an interval greater than 1800 seconds the escalation alert
never fires, so the DOWN alert reduces to the single equality test at the
first threshold. -/
theorem down_alert_iff_threshold_crossing (p : Project) (prev : Option StatusRow)
    (isUp : Bool) :
    (alertDecision p prev isUp = .DOWN ↔
      (isUp = false ∧
        ((updateProjectStatus prev isUp).consecutiveFailures = p.failure_threshold ∨
          (0 < 1800 / p.check_interval_sec ∧
            (updateProjectStatus prev isUp).consecutiveFailures =
              p.failure_threshold + 1800 / p.check_interval_sec)))) ∧
      (1800 < p.check_interval_sec →
        (alertDecision p prev isUp = .DOWN ↔
          (isUp = false ∧
            (updateProjectStatus prev isUp).consecutiveFailures = p.failure_threshold))) := by
  have hchar : ∀ cf : Nat, downAlertFires p isUp cf = true ↔
      (isUp = false ∧
        (cf = p.failure_threshold ∨
          (0 < 1800 / p.check_interval_sec ∧
            cf = p.failure_threshold + 1800 / p.check_interval_sec))) := by
    intro cf
    unfold downAlertFires secondFailureThreshold checksPer30Min
    by_cases hpos : 0 < 1800 / p.check_interval_sec
    · rw [if_pos hpos]
      cases isUp <;> simp [hpos]
    · rw [if_neg hpos]
      cases isUp <;> simp [hpos]
  constructor
  · rw [alertDecision_down_iff]
    exact hchar _
  · intro hlong
    rw [alertDecision_down_iff, hchar]
    have hz : 1800 / p.check_interval_sec = 0 := Nat.div_eq_of_lt hlong
    rw [hz]
    simp

theorem down_alert_iff_threshold_crossing_witness :
    1800 < (⟨3, 3600⟩ : Project).check_interval_sec ∧
      (alertDecision ⟨3, 3600⟩ (some ⟨false, 2⟩) false = .DOWN ↔
        (false = false ∧
          (updateProjectStatus (some ⟨false, 2⟩) false).consecutiveFailures =
            (⟨3, 3600⟩ : Project).failure_threshold)) :=
  ⟨by decide,
    (down_alert_iff_threshold_crossing ⟨3, 3600⟩ (some ⟨false, 2⟩) false).2 (by decide)⟩

/-- C4: for a target with a previous status snapshot, a RECOVERED alert is
emitted iff the check succeeded, the previous snapshot's up flag was
false, and the previous snapshot's consecutive-failure count had reached
the failure threshold; for a target with no previous snapshot the decision
is never RECOVERED (it is DOWN or NONE). -/
theorem recovered_iff_threshold_reached_outage (p : Project) (s : StatusRow)
    (isUp : Bool) :
    (alertDecision p (some s) isUp = .RECOVERED ↔
      (isUp = true ∧ s.is_up = false ∧
        p.failure_threshold ≤ s.consecutive_failures)) ∧
      (∀ u : Bool, alertDecision p none u = .DOWN ∨ alertDecision p none u = .NONE) := by
  constructor
  · cases isUp with
    | true =>
      cases hs : s.is_up <;>
        by_cases hth : p.failure_threshold ≤ s.consecutive_failures <;>
          simp [alertDecision, downAlertFires, updateProjectStatus,
            hadReachedFailureThreshold, hs, hth]
    | false =>
      simp only [Bool.false_eq_true, false_and, iff_false]
      simp only [alertDecision]
      split
      · simp
      · split <;> simp_all
  · intro u
    simp only [alertDecision]
    split
    · exact Or.inl rfl
    · rw [if_neg (by simp [hadReachedFailureThreshold])]
      exact Or.inr rfl

theorem newHigh_nonempty_iff (current : List Finding) (stored : List StoredCVE)
    (ig : List String) :
    (newHighVulns current stored ig).isEmpty = false ↔
      ∃ v ∈ current, v.severity = "HIGH" ∧ v.cve ∉ ig ∧
        storedHasCVE stored v.cve = false := by
  simp [newHighVulns, newVulns, List.isEmpty_iff, List.filter_eq_nil_iff, List.elem_iff]

theorem allCrit_nonempty_iff (current : List Finding) (ig : List String) :
    (allCurrentCritical current ig).isEmpty = false ↔
      ∃ v ∈ current, v.severity = "CRITICAL" ∧ v.cve ∉ ig := by
  simp [allCurrentCritical, List.isEmpty_iff, List.filter_eq_nil_iff, List.elem_iff]

theorem resolvedHP_nonempty_iff (current : List Finding) (stored : List StoredCVE) :
    (resolvedHighPlus stored current).isEmpty = false ↔
      ∃ r ∈ stored, currentHasCVE current r.cve_id = false ∧
        (r.severity = "HIGH" ∨ r.severity = "CRITICAL") := by
  simp [resolvedHighPlus, List.isEmpty_iff, List.filter_eq_nil_iff]
  constructor <;> rintro ⟨r, hr, h1, h2⟩ <;> exact ⟨r, hr, h1, by tauto⟩

theorem shouldAlert_iff (current : List Finding) (stored : List StoredCVE)
    (ig : List String) :
    shouldAlert current stored ig = true ↔
      ((∃ v ∈ current, v.severity = "HIGH" ∧ v.cve ∉ ig ∧
          storedHasCVE stored v.cve = false) ∨
        (∃ v ∈ current, v.severity = "CRITICAL" ∧ v.cve ∉ ig) ∨
        (∃ r ∈ stored, currentHasCVE current r.cve_id = false ∧
          (r.severity = "HIGH" ∨ r.severity = "CRITICAL"))) := by
  unfold shouldAlert
  rw [Bool.or_eq_true, Bool.or_eq_true, Bool.not_eq_true', Bool.not_eq_true',
    Bool.not_eq_true', newHigh_nonempty_iff, allCrit_nonempty_iff,
    resolvedHP_nonempty_iff, or_assoc]

/-- C2: a vulnerability scan of a target alerts iff the set of new
non-ignored HIGH findings is non-empty, or the set of currently-observed
non-ignored CRITICAL findings (new or pre-existing) is non-empty, or the
set of resolved findings of prior severity HIGH or CRITICAL is non-empty;
consequently a present non-ignored CRITICAL finding forces an alert on
every scan cycle, while every member of the HIGH alert subset is a finding
not yet among the active records (HIGH alerts only on first discovery). -/
theorem vuln_alert_iff_subsets_nonempty (store : List StoredCVE) (ig : List String)
    (current : List Finding) :
    ((checkProjectVulnerabilities store ig (some current)).2 = some true ↔
      ((∃ v ∈ current, v.severity = "HIGH" ∧ v.cve ∉ ig ∧
          storedHasCVE (activeRecords store) v.cve = false) ∨
        (∃ v ∈ current, v.severity = "CRITICAL" ∧ v.cve ∉ ig) ∨
        (∃ r ∈ activeRecords store, currentHasCVE current r.cve_id = false ∧
          (r.severity = "HIGH" ∨ r.severity = "CRITICAL")))) ∧
      (∀ v ∈ current, v.severity = "CRITICAL" → v.cve ∉ ig →
        (checkProjectVulnerabilities store ig (some current)).2 = some true) ∧
      (∀ v ∈ newHighVulns current (activeRecords store) ig,
        storedHasCVE (activeRecords store) v.cve = false) := by
  have hsnd : (checkProjectVulnerabilities store ig (some current)).2 =
      some (shouldAlert current (activeRecords store) ig) := rfl
  refine ⟨?_, ?_, ?_⟩
  · rw [hsnd, Option.some_inj]
    exact shouldAlert_iff current (activeRecords store) ig
  · intro v hv hcrit hig
    rw [hsnd, Option.some_inj]
    exact (shouldAlert_iff current (activeRecords store) ig).mpr
      (Or.inr (Or.inl ⟨v, hv, hcrit, hig⟩))
  · intro v hv
    simp only [newHighVulns, newVulns, List.mem_filter, Bool.and_eq_true,
      Bool.not_eq_true'] at hv
    exact hv.1.2

theorem vuln_alert_iff_subsets_nonempty_witness :
    (checkProjectVulnerabilities [] []
        (some [{ cve := "CVE-2024-1", technology := "react", version := "16",
                 severity := "CRITICAL" }])).2 = some true :=
  (vuln_alert_iff_subsets_nonempty [] []
      [{ cve := "CVE-2024-1", technology := "react", version := "16",
         severity := "CRITICAL" }]).2.1
    { cve := "CVE-2024-1", technology := "react", version := "16",
      severity := "CRITICAL" }
    (List.mem_singleton.mpr rfl) rfl (List.not_mem_nil _)

/-- C3 counterexample: an ignored CVE is NOT excluded from the
`resolvedHighPlus` alert subset.  With one active HIGH record for
`CVE-1`, `CVE-1` on the target's ignore list, and a fresh scan that no
longer reports it, the resolved-HIGH-plus subset still contains `CVE-1`
and the scan alerts even though everything observed is ignored — refuting
the claim that the ignore list removes the CVE from every alertable
subset. -/
theorem ignored_cve_in_resolved_subset_cex :
    (resolvedHighPlus
        (activeRecords [⟨"CVE-1", "plugin", "HIGH", false⟩]) []).map StoredCVE.cve_id =
      ["CVE-1"] ∧
      shouldAlert []
        (activeRecords [⟨"CVE-1", "plugin", "HIGH", false⟩]) ["CVE-1"] = true := by
  constructor <;> rfl

/-- C3 amended: an ignore-list entry removes its CVE from the `newHigh`,
`newCritical` and `allCritical` alert subsets of that target (but not from
`resolvedHighPlus`, which the source computes without consulting the
ignore list); the ignored CVE's VulnerabilityRecord keeps being tracked
(every stored row survives a scan with identity and severity intact, only
its resolved flag may be set); and ignoring a CVE for one target leaves
every other target's ignore list — and hence its alert subsets —
unchanged. -/
theorem ignore_list_scoping_amended (table : List IgnoreEntry) (pid : Nat)
    (store : List StoredCVE) (current : List Finding) :
    ((newHighVulns current (activeRecords store)
        (getIgnoredCVEsForProject table pid)).all
          (fun v => !(getIgnoredCVEsForProject table pid).contains v.cve) = true) ∧
      ((newCriticalVulns current (activeRecords store)
        (getIgnoredCVEsForProject table pid)).all
          (fun v => !(getIgnoredCVEsForProject table pid).contains v.cve) = true) ∧
      ((allCurrentCritical current (getIgnoredCVEsForProject table pid)).all
          (fun v => !(getIgnoredCVEsForProject table pid).contains v.cve) = true) ∧
      (store.all (fun r =>
        ((checkProjectVulnerabilities store (getIgnoredCVEsForProject table pid)
            (some current)).1).any
          (fun q => q.cve_id == r.cve_id && q.technology == r.technology &&
            q.severity == r.severity)) = true) ∧
      (∀ pid2 ids uid q, getIgnoredCVEsForProject (ignoreCVEs table pid2 ids uid) q =
        getIgnoredCVEsForProject table q ++ (if pid2 = q then ids else [])) := by
  refine ⟨?_, ?_, ?_, ?_, ?_⟩
  · rw [List.all_eq_true]
    intro v hv
    simp only [newHighVulns, List.mem_filter, Bool.and_eq_true] at hv
    exact hv.2.2
  · rw [List.all_eq_true]
    intro v hv
    simp only [newCriticalVulns, List.mem_filter, Bool.and_eq_true] at hv
    exact hv.2.2
  · rw [List.all_eq_true]
    intro v hv
    simp only [allCurrentCritical, List.mem_filter, Bool.and_eq_true] at hv
    exact hv.2.2
  · rw [List.all_eq_true]
    intro r hr
    rw [List.any_eq_true]
    have hdef : (checkProjectVulnerabilities store (getIgnoredCVEsForProject table pid)
        (some current)).1 =
        markCVEsResolved (saveCVEs store (newVulns current (activeRecords store)))
          (resolvedCVEIds (activeRecords store) current) := rfl
    rw [hdef]
    refine ⟨(fun x => if (resolvedCVEIds (activeRecords store) current).contains x.cve_id
        then { x with resolved := true } else x) r, ?_, ?_⟩
    · exact List.mem_map_of_mem _ (List.mem_append_left _ hr)
    · dsimp only
      split <;> simp
  · intro pid2 ids uid q
    simp only [getIgnoredCVEsForProject, ignoreCVEs, List.filter_append, List.map_append]
    congr 1
    induction ids with
    | nil => simp
    | cons c cs ih =>
      simp only [List.map_cons, List.filter_cons]
      by_cases hq : pid2 = q
      · subst hq
        simp only at ih
        simp [ih]
      · simp only [if_neg hq] at ih ⊢
        simp [hq, ih]

theorem runDailyVulnScan_congr (projects : List Nat) (scans : Nat → Option (List Finding))
    (table : List IgnoreEntry) (s s2 : Nat → List StoredCVE) (h : ∀ q, s q = s2 q) :
    (runDailyVulnScan projects scans table s).2 =
      (runDailyVulnScan projects scans table s2).2 ∧
      ∀ q, (runDailyVulnScan projects scans table s).1 q =
        (runDailyVulnScan projects scans table s2).1 q := by
  induction projects generalizing s s2 with
  | nil => exact ⟨rfl, h⟩
  | cons p rest ih =>
    simp only [runDailyVulnScan]
    rw [h p]
    have hst : ∀ q,
        (fun q => if q = p then
          (checkProjectVulnerabilities (s2 p) (getIgnoredCVEsForProject table p)
            (scans p)).1 else s q) q =
        (fun q => if q = p then
          (checkProjectVulnerabilities (s2 p) (getIgnoredCVEsForProject table p)
            (scans p)).1 else s2 q) q := by
      intro q
      by_cases hq : q = p <;> simp [hq, h q]
    obtain ⟨h1, h2⟩ := ih _ _ hst
    exact ⟨by rw [h1], h2⟩

/-- C5: when the vulnerability source call for a target fails (`scanUrl`
throws, modelled as `scans p = none`), the scan for that target returns
`null` with the target's CVE store unchanged and no alert, and the daily
batch behaves on the remaining targets exactly as if the failed target
were absent: the result list merely gains a leading `none` and the final
store agrees target by target. -/
theorem scan_failure_leaves_store_and_batch (p : Nat) (rest : List Nat)
    (scans : Nat → Option (List Finding)) (table : List IgnoreEntry)
    (store : Nat → List StoredCVE) (hfail : scans p = none) :
    checkProjectVulnerabilities (store p) (getIgnoredCVEsForProject table p) (scans p) =
      (store p, none) ∧
      (runDailyVulnScan (p :: rest) scans table store).2 =
        none :: (runDailyVulnScan rest scans table store).2 ∧
      ∀ q, (runDailyVulnScan (p :: rest) scans table store).1 q =
        (runDailyVulnScan rest scans table store).1 q := by
  have h1 : checkProjectVulnerabilities (store p) (getIgnoredCVEsForProject table p)
      (scans p) = (store p, none) := by
    rw [hfail]
    rfl
  have hst : ∀ q,
      (fun q => if q = p then
        (checkProjectVulnerabilities (store p) (getIgnoredCVEsForProject table p)
          (scans p)).1 else store q) q = store q := by
    intro q
    by_cases hq : q = p <;> simp [hq, h1]
  obtain ⟨hc1, hc2⟩ := runDailyVulnScan_congr rest scans table _ store hst
  refine ⟨h1, ?_, hc2⟩
  simp only [runDailyVulnScan]
  rw [hc1, h1]

theorem scan_failure_leaves_store_and_batch_witness :
    (fun _ : Nat => (none : Option (List Finding))) 1 = none ∧
      checkProjectVulnerabilities ((fun _ : Nat => ([] : List StoredCVE)) 1)
        (getIgnoredCVEsForProject [] 1)
        ((fun _ : Nat => (none : Option (List Finding))) 1) =
        ((fun _ : Nat => ([] : List StoredCVE)) 1, none) :=
  ⟨rfl,
    (scan_failure_leaves_store_and_batch 1 [] (fun _ => none) []
      (fun _ => []) rfl).1⟩

theorem currentHasCVE_eq_true_iff (current : List Finding) (id : String) :
    currentHasCVE current id = true ↔ ∃ v ∈ current, v.cve = id := by
  simp [currentHasCVE]

theorem storedHasCVE_eq_true_iff (stored : List StoredCVE) (id : String) :
    storedHasCVE stored id = true ↔ ∃ r ∈ stored, r.cve_id = id := by
  simp [storedHasCVE]

theorem mem_activeRecords_iff (r : StoredCVE) (store : List StoredCVE) :
    r ∈ activeRecords store ↔ r ∈ store ∧ r.resolved = false := by
  simp [activeRecords, List.mem_filter]

theorem mem_resolvedCVEIds_iff (stored : List StoredCVE) (current : List Finding)
    (id : String) :
    id ∈ resolvedCVEIds stored current ↔
      (∃ r ∈ stored, r.cve_id = id) ∧ currentHasCVE current id = false := by
  unfold resolvedCVEIds
  rw [List.mem_map]
  constructor
  · rintro ⟨r, hr, rfl⟩
    rw [List.mem_filter] at hr
    exact ⟨⟨r, hr.1, rfl⟩, by simpa using hr.2⟩
  · rintro ⟨⟨r, hr, rfl⟩, hcur⟩
    exact ⟨r, List.mem_filter.mpr ⟨hr, by simp [hcur]⟩, rfl⟩

theorem checkPV_fst (store : List StoredCVE) (ig : List String)
    (current : List Finding) :
    (checkProjectVulnerabilities store ig (some current)).1 =
      markCVEsResolved (saveCVEs store (newVulns current (activeRecords store)))
        (resolvedCVEIds (activeRecords store) current) := rfl

theorem active_after_diff (store : List StoredCVE) (ig : List String)
    (current : List Finding) (id : String) :
    storedHasCVE
        (activeRecords ((checkProjectVulnerabilities store ig (some current)).1)) id =
      currentHasCVE current id := by
  rw [checkPV_fst]
  cases hcur : currentHasCVE current id with
  | false =>
    rw [Bool.eq_false_iff]
    intro h
    obtain ⟨r, hr, hid⟩ := (storedHasCVE_eq_true_iff _ _).mp h
    obtain ⟨hrmem, hrres⟩ := (mem_activeRecords_iff _ _).mp hr
    unfold markCVEsResolved at hrmem
    rw [List.mem_map] at hrmem
    obtain ⟨x, hx, hfx⟩ := hrmem
    unfold saveCVEs at hx
    rcases List.mem_append.mp hx with hxs | hxn
    · by_cases hcont :
        (resolvedCVEIds (activeRecords store) current).contains x.cve_id = true
      · rw [if_pos hcont] at hfx
        rw [← hfx] at hrres
        simp at hrres
      · rw [if_neg hcont] at hfx
        subst hfx
        exact hcont (List.elem_iff.mpr ((mem_resolvedCVEIds_iff _ _ _).mpr
          ⟨⟨x, (mem_activeRecords_iff _ _).mpr ⟨hxs, hrres⟩, rfl⟩,
            by rw [hid]; exact hcur⟩))
    · rw [List.mem_map] at hxn
      obtain ⟨v, hv, hmk⟩ := hxn
      have hvc : v ∈ current := List.mem_of_mem_filter hv
      have hxid : x.cve_id = id := by
        rw [← hfx] at hid
        revert hid
        split <;> intro hid <;> exact hid
      have hvid : v.cve = id := by
        rw [← hmk] at hxid
        exact hxid
      have : currentHasCVE current id = true :=
        (currentHasCVE_eq_true_iff _ _).mpr ⟨v, hvc, hvid⟩
      rw [this] at hcur
      cases hcur
  | true =>
    obtain ⟨v, hv, hvid⟩ := (currentHasCVE_eq_true_iff _ _).mp hcur
    have hnotid : id ∉ resolvedCVEIds (activeRecords store) current := by
      intro hmem
      have h2 := ((mem_resolvedCVEIds_iff _ _ _).mp hmem).2
      rw [h2] at hcur
      cases hcur
    by_cases hact : storedHasCVE (activeRecords store) id = true
    · obtain ⟨r, hr, hrid⟩ := (storedHasCVE_eq_true_iff _ _).mp hact
      obtain ⟨hrs, hrres⟩ := (mem_activeRecords_iff _ _).mp hr
      have hnotr :
          ¬(resolvedCVEIds (activeRecords store) current).contains r.cve_id = true := by
        intro hc
        exact hnotid (by rw [← hrid]; exact List.elem_iff.mp hc)
      refine (storedHasCVE_eq_true_iff _ _).mpr ⟨r, ?_, hrid⟩
      refine (mem_activeRecords_iff _ _).mpr ⟨?_, hrres⟩
      unfold markCVEsResolved saveCVEs
      rw [List.mem_map]
      exact ⟨r, List.mem_append_left _ hrs, if_neg hnotr⟩
    · have hvnew : v ∈ newVulns current (activeRecords store) := by
        unfold newVulns
        rw [List.mem_filter]
        refine ⟨hv, ?_⟩
        rw [hvid]
        simp [Bool.eq_false_iff.mpr hact]
      have hxnew : (⟨v.cve, v.technology, v.severity, false⟩ : StoredCVE) ∈
          (newVulns current (activeRecords store)).map (fun v =>
            ({ cve_id := v.cve, technology := v.technology, severity := v.severity,
               resolved := false } : StoredCVE)) :=
        List.mem_map_of_mem _ hvnew
      have hnotx :
          ¬(resolvedCVEIds (activeRecords store) current).contains
            (⟨v.cve, v.technology, v.severity, false⟩ : StoredCVE).cve_id = true := by
        intro hc
        exact hnotid (by rw [← hvid]; exact List.elem_iff.mp hc)
      refine (storedHasCVE_eq_true_iff _ _).mpr
        ⟨⟨v.cve, v.technology, v.severity, false⟩, ?_, hvid⟩
      refine (mem_activeRecords_iff _ _).mpr ⟨?_, rfl⟩
      unfold markCVEsResolved saveCVEs
      rw [List.mem_map]
      exact ⟨⟨v.cve, v.technology, v.severity, false⟩,
        List.mem_append_right _ hxnew, if_neg hnotx⟩

/-- C8: running the diff engine a second time with the same finding set is
idempotent: the second run computes no new findings and no resolved ids,
leaves the stored record set exactly as the first run left it, and alerts
iff a non-ignored CRITICAL finding is still present in the scan (unchanged
HIGH findings do not re-alert). -/
theorem diff_engine_idempotent (store : List StoredCVE) (ig : List String)
    (current : List Finding) :
    (checkProjectVulnerabilities
        ((checkProjectVulnerabilities store ig (some current)).1) ig (some current)).1 =
      (checkProjectVulnerabilities store ig (some current)).1 ∧
      newVulns current
        (activeRecords ((checkProjectVulnerabilities store ig (some current)).1)) = [] ∧
      resolvedCVEIds
        (activeRecords ((checkProjectVulnerabilities store ig (some current)).1))
        current = [] ∧
      ((checkProjectVulnerabilities
          ((checkProjectVulnerabilities store ig (some current)).1) ig
          (some current)).2 = some true ↔
        ∃ v ∈ current, v.severity = "CRITICAL" ∧ v.cve ∉ ig) := by
  have hnew : newVulns current
      (activeRecords ((checkProjectVulnerabilities store ig (some current)).1)) = [] := by
    apply List.filter_eq_nil_iff.mpr
    intro v hv
    have hcv : currentHasCVE current v.cve = true :=
      (currentHasCVE_eq_true_iff _ _).mpr ⟨v, hv, rfl⟩
    simp [active_after_diff, hcv]
  have hres : resolvedCVEIds
      (activeRecords ((checkProjectVulnerabilities store ig (some current)).1))
      current = [] := by
    unfold resolvedCVEIds
    have hfil : (activeRecords
        ((checkProjectVulnerabilities store ig (some current)).1)).filter
          (fun r => !currentHasCVE current r.cve_id) = [] := by
      apply List.filter_eq_nil_iff.mpr
      intro r hr
      have hc : currentHasCVE current r.cve_id = true := by
        rw [← active_after_diff store ig current r.cve_id]
        exact (storedHasCVE_eq_true_iff _ _).mpr ⟨r, hr, rfl⟩
      simp [hc]
    rw [hfil]
    rfl
  have hstate : (checkProjectVulnerabilities
      ((checkProjectVulnerabilities store ig (some current)).1) ig (some current)).1 =
      (checkProjectVulnerabilities store ig (some current)).1 := by
    rw [checkPV_fst ((checkProjectVulnerabilities store ig (some current)).1) ig current,
      hnew, hres]
    simp [saveCVEs, markCVEsResolved]
  refine ⟨hstate, hnew, hres, ?_⟩
  have hsnd : (checkProjectVulnerabilities
      ((checkProjectVulnerabilities store ig (some current)).1) ig (some current)).2 =
      some (shouldAlert current
        (activeRecords ((checkProjectVulnerabilities store ig (some current)).1)) ig) :=
    rfl
  rw [hsnd, Option.some_inj, shouldAlert_iff]
  constructor
  · rintro (⟨v, hv, hH, hig2, hnot⟩ | hmid | ⟨r, hr, hcur2, hsev⟩)
    · exfalso
      rw [active_after_diff] at hnot
      have hcv : currentHasCVE current v.cve = true :=
        (currentHasCVE_eq_true_iff _ _).mpr ⟨v, hv, rfl⟩
      rw [hcv] at hnot
      cases hnot
    · exact hmid
    · exfalso
      have hc : storedHasCVE
          (activeRecords ((checkProjectVulnerabilities store ig (some current)).1))
          r.cve_id = true :=
        (storedHasCVE_eq_true_iff _ _).mpr ⟨r, hr, rfl⟩
      rw [active_after_diff, hcur2] at hc
      cases hc
  · intro h
    exact Or.inr (Or.inl h)

theorem div_eq_iff_range (k ms j : Nat) (h : 0 < ms) :
    k / ms = j ↔ j * ms ≤ k ∧ k < (j + 1) * ms := by
  constructor
  · intro he
    refine ⟨(Nat.le_div_iff_mul_le h).mp (le_of_eq he.symm), ?_⟩
    exact (Nat.div_lt_iff_lt_mul h).mp (by omega)
  · rintro ⟨h1, h2⟩
    have ha : j ≤ k / ms := (Nat.le_div_iff_mul_le h).mpr h1
    have hb : k / ms < j + 1 := (Nat.div_lt_iff_lt_mul h).mpr h2
    omega

theorem updateSlot_length (bs : List Bucket) (s : Nat) (up : Bool) :
    (updateSlot bs s up).length = bs.length := by
  induction bs generalizing s with
  | nil => rfl
  | cons b bs ih =>
    cases s with
    | zero => rfl
    | succ n => simp [updateSlot, ih]

theorem addCheck_length (startTime endTime : Int) (numSlots msPerSlot : Nat)
    (bs : List Bucket) (c : CheckRec) :
    (addCheck startTime endTime numSlots msPerSlot bs c).length = bs.length := by
  unfold addCheck
  split
  · rfl
  · split
    · exact updateSlot_length _ _ _
    · rfl

theorem updateSlot_getD (bs : List Bucket) (s j : Nat) (up : Bool) (d : Bucket)
    (hj : j < bs.length) :
    (updateSlot bs s up).getD j d =
      if s = j then
        ⟨(bs.getD j d).checks + 1, (bs.getD j d).upCount + (if up then 1 else 0)⟩
      else bs.getD j d := by
  induction bs generalizing s j with
  | nil => simp at hj
  | cons b bs ih =>
    cases s with
    | zero =>
      cases j with
      | zero => simp [updateSlot]
      | succ j2 => simp [updateSlot]
    | succ n =>
      cases j with
      | zero => simp [updateSlot]
      | succ j2 =>
        simp only [updateSlot, List.getD_cons_succ]
        rw [ih n j2 (by simpa using hj)]
        by_cases h : n = j2 <;> simp [h]

theorem addCheck_getD (startTime : Int) (numSlots msPerSlot : Nat) (hms : 0 < msPerSlot)
    (bs : List Bucket) (hlen : bs.length = numSlots) (c : CheckRec) (j : Nat)
    (hj : j < numSlots) (d : Bucket) :
    (addCheck startTime (startTime + ((numSlots * msPerSlot : Nat) : Int)) numSlots
        msPerSlot bs c).getD j d =
      if inSlot startTime msPerSlot j c = true then
        ⟨(bs.getD j d).checks + 1, (bs.getD j d).upCount + (if c.is_up then 1 else 0)⟩
      else bs.getD j d := by
  have hj1 : j * msPerSlot + msPerSlot ≤ numSlots * msPerSlot := by
    calc j * msPerSlot + msPerSlot = (j + 1) * msPerSlot := (Nat.succ_mul j msPerSlot).symm
      _ ≤ numSlots * msPerSlot := Nat.mul_le_mul_right _ hj
  unfold addCheck
  split
  · rename_i hskip
    simp only [Bool.or_eq_true, decide_eq_true_eq] at hskip
    rw [if_neg]
    intro hin
    simp only [inSlot, Bool.and_eq_true, decide_eq_true_eq, Nat.succ_mul] at hin
    omega
  · rename_i hkeep
    simp only [Bool.or_eq_true, decide_eq_true_eq, not_or, not_lt] at hkeep
    have hts : ((c.checked_at - startTime).toNat : Int) = c.checked_at - startTime :=
      Int.toNat_of_nonneg (by omega)
    split
    · rename_i hslot
      rw [updateSlot_getD bs _ j c.is_up d (by omega)]
      have hiff : ((c.checked_at - startTime).toNat / msPerSlot = j) ↔
          inSlot startTime msPerSlot j c = true := by
        rw [div_eq_iff_range _ _ _ hms]
        simp only [inSlot, Bool.and_eq_true, decide_eq_true_eq, Nat.succ_mul]
        omega
      by_cases hd : (c.checked_at - startTime).toNat / msPerSlot = j
      · rw [if_pos hd, if_pos (hiff.mp hd)]
      · rw [if_neg hd, if_neg (fun hin => hd (hiff.mpr hin))]
    · rename_i hslot
      rw [if_neg]
      intro hin
      simp only [inSlot, Bool.and_eq_true, decide_eq_true_eq, Nat.succ_mul] at hin
      have hge : numSlots * msPerSlot ≤ (c.checked_at - startTime).toNat :=
        (Nat.le_div_iff_mul_le hms).mp (Nat.le_of_not_lt hslot)
      omega

theorem bucketFold_getD (startTime : Int) (numSlots msPerSlot : Nat)
    (hms : 0 < msPerSlot) (data : List CheckRec) (bs : List Bucket)
    (hlen : bs.length = numSlots) (j : Nat) (hj : j < numSlots) (d : Bucket) :
    (data.foldl
        (addCheck startTime (startTime + ((numSlots * msPerSlot : Nat) : Int)) numSlots
          msPerSlot) bs).getD j d =
      ⟨(bs.getD j d).checks + (data.filter (inSlot startTime msPerSlot j)).length,
        (bs.getD j d).upCount +
          (data.filter (fun c => inSlot startTime msPerSlot j c && c.is_up)).length⟩ := by
  induction data generalizing bs with
  | nil =>
    simp only [List.foldl_nil, List.filter_nil, List.length_nil, Nat.add_zero]
  | cons c cs ih =>
    rw [List.foldl_cons,
      ih (addCheck startTime (startTime + ((numSlots * msPerSlot : Nat) : Int)) numSlots
        msPerSlot bs c) (by rw [addCheck_length]; exact hlen),
      addCheck_getD startTime numSlots msPerSlot hms bs hlen c j hj d,
      List.filter_cons, List.filter_cons]
    by_cases hin : inSlot startTime msPerSlot j c = true
    · cases hc : c.is_up
      · simp [hin, hc, Bucket.mk.injEq]
        all_goals omega
      · simp [hin, hc, Bucket.mk.injEq]
        all_goals omega
    · have hin0 : inSlot startTime msPerSlot j c = false := Bool.eq_false_iff.mpr hin
      simp [hin0, Bucket.mk.injEq]

theorem bucketUptimeData_getD (data : List CheckRec) (startTime : Int)
    (numSlots msPerSlot : Nat) (hms : 0 < msPerSlot) (j : Nat) (hj : j < numSlots) :
    (bucketUptimeData data startTime (startTime + ((numSlots * msPerSlot : Nat) : Int))
        numSlots msPerSlot).getD j ⟨0, 0⟩ =
      ⟨(data.filter (inSlot startTime msPerSlot j)).length,
        (data.filter (fun c => inSlot startTime msPerSlot j c && c.is_up)).length⟩ := by
  unfold bucketUptimeData
  rw [bucketFold_getD startTime numSlots msPerSlot hms data _
    (List.length_replicate _ _) j hj]
  have hrep : (List.replicate numSlots ({ checks := 0, upCount := 0 } : Bucket)).getD j
      ⟨0, 0⟩ = ⟨0, 0⟩ := by
    simp [List.getD, List.getElem?_replicate, hj]
  rw [hrep]
  simp

theorem slotColor_vs_specClass (b : Bucket) (hb : b.upCount ≤ b.checks) :
    (specSlotClass b = .noData ↔ getSlotColor b = .noData) ∧
      (specSlotClass b = .up ↔ getSlotColor b = .upBright) ∧
      (specSlotClass b = .half ↔ (getSlotColor b = .up ∨ getSlotColor b = .mixed)) ∧
      (specSlotClass b = .down ↔ (getSlotColor b = .down ∨ getSlotColor b = .downBright)) := by
  unfold specSlotClass getSlotColor
  split_ifs <;> simp_all <;> omega

/-- C7: for a reporting window `[startTime, startTime + numSlots * msPerSlot)`
divided into `numSlots` slots of width `msPerSlot`, the aggregator counts in
slot `j` exactly the records whose timestamp lies in slot `j`'s half-open
interval (records outside the window reach no bucket); the source's slot
colour refines the spec's classification (NO_DATA iff the noData colour, UP
iff the bright-up colour, PARTIAL iff one of the two intermediate colours,
DOWN iff one of the two down colours); a window with no records classifies
every bucket NO_DATA; and an all-up record set classifies every populated
bucket UP. -/
theorem aggregator_buckets_and_classification (data : List CheckRec) (startTime : Int)
    (numSlots msPerSlot : Nat) (hms : 0 < msPerSlot) :
    (∀ j, j < numSlots →
      (bucketUptimeData data startTime (startTime + ((numSlots * msPerSlot : Nat) : Int))
          numSlots msPerSlot).getD j ⟨0, 0⟩ =
        ⟨(data.filter (inSlot startTime msPerSlot j)).length,
          (data.filter (fun c => inSlot startTime msPerSlot j c && c.is_up)).length⟩) ∧
      (∀ b : Bucket, b.upCount ≤ b.checks →
        ((specSlotClass b = .noData ↔ getSlotColor b = .noData) ∧
          (specSlotClass b = .up ↔ getSlotColor b = .upBright) ∧
          (specSlotClass b = .half ↔ (getSlotColor b = .up ∨ getSlotColor b = .mixed)) ∧
          (specSlotClass b = .down ↔
            (getSlotColor b = .down ∨ getSlotColor b = .downBright)))) ∧
      (∀ j, j < numSlots →
        specSlotClass ((bucketUptimeData [] startTime
            (startTime + ((numSlots * msPerSlot : Nat) : Int)) numSlots msPerSlot).getD j
          ⟨0, 0⟩) = .noData) ∧
      ((∀ c ∈ data, c.is_up = true) → ∀ j, j < numSlots →
        ((bucketUptimeData data startTime
            (startTime + ((numSlots * msPerSlot : Nat) : Int)) numSlots
            msPerSlot).getD j ⟨0, 0⟩).checks ≠ 0 →
        specSlotClass ((bucketUptimeData data startTime
            (startTime + ((numSlots * msPerSlot : Nat) : Int)) numSlots
            msPerSlot).getD j ⟨0, 0⟩) = .up) := by
  refine ⟨?_, ?_, ?_, ?_⟩
  · intro j hj
    exact bucketUptimeData_getD data startTime numSlots msPerSlot hms j hj
  · intro b hb
    exact slotColor_vs_specClass b hb
  · intro j hj
    rw [bucketUptimeData_getD [] startTime numSlots msPerSlot hms j hj]
    rfl
  · intro hall j hj hne
    rw [bucketUptimeData_getD data startTime numSlots msPerSlot hms j hj] at hne ⊢
    have hfe : data.filter (fun c => inSlot startTime msPerSlot j c && c.is_up) =
        data.filter (inSlot startTime msPerSlot j) := by
      apply List.filter_congr
      intro c hc
      rw [hall c hc, Bool.and_true]
    rw [hfe]
    unfold specSlotClass
    simp only at hne
    rw [if_neg hne, if_pos rfl]

theorem aggregator_buckets_and_classification_witness :
    0 < 10 ∧
      (bucketUptimeData [⟨5, true⟩] 0 (0 + ((2 * 10 : Nat) : Int)) 2 10).getD 0 ⟨0, 0⟩ =
        ⟨(([⟨5, true⟩] : List CheckRec).filter (inSlot 0 10 0)).length,
          (([⟨5, true⟩] : List CheckRec).filter
            (fun c => inSlot 0 10 0 c && c.is_up)).length⟩ :=
  ⟨by decide,
    (aggregator_buckets_and_classification [⟨5, true⟩] 0 2 10 (by decide)).1 0
      (by decide)⟩
